import Mathlib

/-!
Verification of the RBAC authorization core of the gizmoyogi2 repository.

The embedding follows the source:
* the SQL schema and helper functions (`roles`, `user_roles`, `admin_users`,
  `get_user_roles`, `has_role`, `is_admin`, `can_manage_roles`) from the two
  role-system migrations;
* the client hook `useUserRoles` (`hasRole`, `hasAnyRole`, `isAdmin`,
  `isSuperAdmin`, `assignRole`, `removeRole`) from the hooks file;
* the row-level-security policies on `roles`, `user_roles` and `articles`.

Machine tables are lists of rows; uuids are modelled as `Nat`.
-/

namespace Gizmo

/-- A row of the `roles` table: `id uuid PRIMARY KEY, name text UNIQUE`.
`description`, `created_at`, `updated_at` play no role in any claim. -/
structure Role where
  id : Nat
  name : String
deriving DecidableEq, Repr

/-- A row of the `user_roles` junction table, `PRIMARY KEY (user_id, role_id)`.
`assigned_by` and `assigned_at` play no role in any claim. -/
structure Assignment where
  user_id : Nat
  role_id : Nat
deriving DecidableEq, Repr

/-- A row of the legacy `admin_users` table, keyed by email. -/
structure AdminEntry where
  email : String
  role : String
deriving DecidableEq, Repr

/-- The database state reachable by the authorization core. -/
structure DB where
  roles : List Role
  user_roles : List Assignment
  admin_users : List AdminEntry
deriving DecidableEq, Repr

/-- SQL `get_user_roles()`: `SELECT r.name FROM user_roles ur JOIN roles r
ON ur.role_id = r.id WHERE ur.user_id = auth.uid()`.  The caller identity
`auth.uid()` is passed explicitly as `uid`. -/
def get_user_roles (db : DB) (uid : Nat) : List String :=
  (db.user_roles.filter (fun ur => ur.user_id == uid)).flatMap
    (fun ur => (db.roles.filter (fun r => r.id == ur.role_id)).map Role.name)

/-- SQL `has_role(role_name)`: `EXISTS (SELECT 1 FROM user_roles ur JOIN roles r
ON ur.role_id = r.id WHERE ur.user_id = auth.uid() AND r.name = role_name)`. -/
def has_role (db : DB) (uid : Nat) (role_name : String) : Bool :=
  db.user_roles.any (fun ur => ur.user_id == uid &&
    db.roles.any (fun r => r.id == ur.role_id && r.name == role_name))

/-- SQL `is_admin()`: the new-role-system check for `admin`/`super_admin`,
falling back to the legacy `admin_users` table matched by `auth.email()`. -/
def is_admin (db : DB) (uid : Nat) (email : String) : Bool :=
  (db.user_roles.any (fun ur => ur.user_id == uid &&
      db.roles.any (fun r => r.id == ur.role_id &&
        (r.name == "admin" || r.name == "super_admin"))))
  || db.admin_users.any (fun a => a.email == email &&
      (a.role == "admin" || a.role == "super_admin"))

/-- SQL `can_manage_roles()`: `RETURN has_role('super_admin')`. -/
def can_manage_roles (db : DB) (uid : Nat) : Bool :=
  has_role db uid "super_admin"

/-- The spec-side legacy-entry match, used to state the `isAdmin` equivalence:
a Legacy Admin Entry with the identity's email and role in
`{admin, super_admin}` exists. -/
def legacyMatch (db : DB) (email : String) : Bool :=
  db.admin_users.any (fun a => a.email == email &&
    (a.role == "admin" || a.role == "super_admin"))

/-! ### Client-side hook `useUserRoles` -/

/-- Outcome of the `supabase.rpc('get_user_roles')` call inside
`fetchUserRoles`: either the rows arrive, or any error is thrown. -/
inductive FetchOutcome
  | success
  | failure
deriving DecidableEq, Repr

/-- The `roles` state of `useUserRoles` after its effect has settled:
`null` user leaves `[]`; a successful fetch stores the names returned by
`get_user_roles`; the `catch` branch of `fetchUserRoles` sets `[]`. -/
def rolesState (db : DB) (user : Option Nat) (outcome : FetchOutcome) :
    List String :=
  match user with
  | none => []
  | some uid =>
    match outcome with
    | .success => get_user_roles db uid
    | .failure => []

/-- Client `hasRole(roleName)`: `roles.includes(roleName)`. -/
def hasRole (roles : List String) (roleName : String) : Bool :=
  roles.contains roleName

/-- Client `hasAnyRole(roleNames)`: `roleNames.some(n => roles.includes(n))`. -/
def hasAnyRole (roles : List String) (roleNames : List String) : Bool :=
  roleNames.any (fun n => roles.contains n)

/-- Client `isAdmin()`: `hasAnyRole(['admin', 'super_admin'])`. -/
def isAdmin (roles : List String) : Bool :=
  hasAnyRole roles ["admin", "super_admin"]

/-- Client `isSuperAdmin()`: `hasRole('super_admin')`. -/
def isSuperAdmin (roles : List String) : Bool :=
  hasRole roles "super_admin"

/-- Errors surfaced by `assignRole` / `removeRole`: the `.single()` role
lookup throws when zero rows (`notFound`) or several rows (`multipleRows`)
match, and a plain `insert` that violates `PRIMARY KEY (user_id, role_id)`
throws (`uniqueViolation`). -/
inductive OpError
  | notFound
  | multipleRows
  | uniqueViolation
deriving DecidableEq, Repr

/-- The role-id lookup shared by `assignRole` and `removeRole`:
`from('roles').select('id').eq('name', roleName).single()`. -/
def selectRoleIdSingle (db : DB) (roleName : String) : Except OpError Nat :=
  match db.roles.filter (fun r => r.name == roleName) with
  | [r] => .ok r.id
  | [] => .error .notFound
  | _ => .error .multipleRows

/-- Client `assignRole(userId, roleName)`: looks the role up by name with
`.single()`, then inserts `{user_id, role_id}` into `user_roles` with a plain
`insert` — no upsert and no `ON CONFLICT`, so a duplicate key is an error. -/
def assignRole (db : DB) (userId : Nat) (roleName : String) :
    Except OpError DB :=
  match selectRoleIdSingle db roleName with
  | .error e => .error e
  | .ok rid =>
    if db.user_roles.any (fun ur => ur.user_id == userId && ur.role_id == rid)
    then .error .uniqueViolation
    else .ok { db with
      user_roles := db.user_roles ++ [{ user_id := userId, role_id := rid }] }

/-- Client `removeRole(userId, roleName)`: looks the role up by name with
`.single()`, then `delete().eq('user_id', userId).eq('role_id', role.id)`;
deleting zero rows is not an error. -/
def removeRole (db : DB) (userId : Nat) (roleName : String) :
    Except OpError DB :=
  match selectRoleIdSingle db roleName with
  | .error e => .error e
  | .ok rid =>
    .ok { db with
      user_roles := db.user_roles.filter
        (fun ur => !(ur.user_id == userId && ur.role_id == rid)) }

/-! ### Row-level-security policies -/

/-- A SQL command class, as RLS distinguishes them. -/
inductive Cmd
  | select
  | insert
  | update
  | delete
deriving DecidableEq, Repr

/-- The commands covered by `FOR ALL`. -/
def allCmds : List Cmd := [.select, .insert, .update, .delete]

/-- A permissive RLS policy on a table with rows of type `Row`: the commands
it applies to (`FOR SELECT` / `FOR ALL`) and its predicate over the caller
context (database snapshot, `auth.uid()`, `auth.email()`) and the row. -/
structure Policy (Row : Type) where
  cmds : List Cmd
  cond : DB → Nat → String → Row → Bool

/-- Permissive policies combine with OR: an operation on a row is allowed
when some policy covering the command accepts it. -/
def allowed {Row : Type} (ps : List (Policy Row)) (cmd : Cmd) (db : DB)
    (uid : Nat) (email : String) (row : Row) : Bool :=
  ps.any (fun p => p.cmds.contains cmd && p.cond db uid email row)

/-- Policies on the `roles` table: `"Anyone can read roles"` (`FOR SELECT
USING (true)`) and `"Super admins can manage roles"` (`FOR ALL USING
(can_manage_roles()) WITH CHECK (can_manage_roles())`). -/
def rolesPolicies : List (Policy Role) :=
  [ ⟨[.select], fun _ _ _ _ => true⟩,
    ⟨allCmds, fun db uid _ _ => can_manage_roles db uid⟩ ]

/-- Policies on the `user_roles` table: `"Users can read their own roles"`,
`"Admins can read all user roles"`, `"Super admins can manage user roles"`. -/
def userRolesPolicies : List (Policy Assignment) :=
  [ ⟨[.select], fun _ uid _ row => row.user_id == uid⟩,
    ⟨[.select], fun db uid email _ => is_admin db uid email⟩,
    ⟨allCmds, fun db uid _ _ => can_manage_roles db uid⟩ ]

/-- A row of the `articles` table; its columns play no role in any claim. -/
structure Article where
  id : Nat
deriving DecidableEq, Repr

/-- Modelled from the spec: the public read access to `articles`
("Read allowed when: true (public)").  The migration that creates the
public-read policy on `articles` is not among the source files — the
role-system migration only drops the predecessor write policy
`"Authenticated users can manage articles"` and leaves reads as they were. -/
def articlesPublicReadPolicy : Policy Article :=
  ⟨[.select], fun _ _ _ _ => true⟩

/-- Policies on the `articles` table after the role-system migration:
`"Content creators can manage articles"` (`FOR ALL USING (has_role(
'mantra_curator') OR is_admin()) WITH CHECK (...)`) together with the
public read policy. -/
def articlesPolicies : List (Policy Article) :=
  [ articlesPublicReadPolicy,
    ⟨allCmds, fun db uid email _ =>
      has_role db uid "mantra_curator" || is_admin db uid email⟩ ]

/-! ### The eight predefined roles -/

/-- The role catalog seeded by the migration (ids are positions). -/
def seededRoles : List Role :=
  [ ⟨1, "super_admin"⟩, ⟨2, "admin"⟩, ⟨3, "yoga_acharya"⟩,
    ⟨4, "mantra_curator"⟩, ⟨5, "sangha_guide"⟩, ⟨6, "energy_exchange_lead"⟩,
    ⟨7, "zen_analyst"⟩, ⟨8, "yogi_in_training"⟩ ]

/-- The seven predefined roles other than `super_admin`. -/
def otherSevenRoles : List String :=
  [ "admin", "yoga_acharya", "mantra_curator", "sangha_guide",
    "energy_exchange_lead", "zen_analyst", "yogi_in_training" ]

/-! ### Assignment-store lifecycle -/

/-- No `user_roles` row carries the composite key `(uid, rid)`. -/
def keyFree (uid rid : Nat) (l : List Assignment) : Bool :=
  !(l.any (fun ur => ur.user_id == uid && ur.role_id == rid))

/-- Each composite key `(user_id, role_id)` appears at most once, as the
`PRIMARY KEY (user_id, role_id)` declaration demands. -/
def dupFree : List Assignment → Bool
  | [] => true
  | ur :: rest => keyFree ur.user_id ur.role_id rest && dupFree rest

/-- One step of the assignment lifecycle: an `assignRole` or `removeRole`
call by any caller; a call that throws leaves the store unchanged. -/
inductive Step : DB → DB → Prop
  | assignOk (db : DB) (uid : Nat) (n : String) (db' : DB) :
      assignRole db uid n = .ok db' → Step db db'
  | assignErr (db : DB) (uid : Nat) (n : String) (e : OpError) :
      assignRole db uid n = .error e → Step db db
  | removeOk (db : DB) (uid : Nat) (n : String) (db' : DB) :
      removeRole db uid n = .ok db' → Step db db'
  | removeErr (db : DB) (uid : Nat) (n : String) (e : OpError) :
      removeRole db uid n = .error e → Step db db

/-- Reachability of one store state from another by a sequence of
assign/revoke operations. -/
def Reach (db db' : DB) : Prop := Relation.ReflTransGen Step db db'

/-! ### Concrete stores used as witnesses and counterexamples -/

/-- Seeded catalog; identity 1 holds `super_admin`, identity 3 holds
`zen_analyst`, identity 4 holds `mantra_curator`; no legacy entries. -/
def exCatalogDB : DB := ⟨seededRoles, [⟨1, 1⟩, ⟨3, 7⟩, ⟨4, 4⟩], []⟩

/-- Seeded catalog, no assignments, one legacy admin entry for `a@x.com`. -/
def exLegacyDB : DB := ⟨seededRoles, [], [⟨"a@x.com", "admin"⟩]⟩

/-- Seeded catalog; identity 1 already holds `admin` (role id 2). -/
def exHeldDB : DB := ⟨seededRoles, [⟨1, 2⟩], []⟩

/-- Seeded catalog with an empty assignment store. -/
def exEmptyDB : DB := ⟨seededRoles, [], []⟩

/-- The store after assigning `admin` (role id 2) to identity 2 in
`exEmptyDB`. -/
def exAfterAssignDB : DB := ⟨seededRoles, [⟨2, 2⟩], []⟩

/-! ## Helper lemmas -/

/-- Membership in the `get_user_roles` join, spelled out. -/
theorem mem_get_user_roles (db : DB) (uid : Nat) (s : String) :
    s ∈ get_user_roles db uid ↔
      ∃ ur ∈ db.user_roles, ur.user_id = uid ∧
        ∃ r ∈ db.roles, r.id = ur.role_id ∧ r.name = s := by
  simp [get_user_roles]
  constructor
  · rintro ⟨ur, ⟨hur, hu⟩, r, ⟨hr, hid⟩, hn⟩
    exact ⟨ur, hur, hu, r, hr, hid, hn⟩
  · rintro ⟨ur, hur, hu, r, hr, hid, hn⟩
    exact ⟨ur, ⟨hur, hu⟩, r, ⟨hr, hid⟩, hn⟩

/-- The SQL `has_role` EXISTS-query is membership in `get_user_roles`. -/
theorem has_role_iff_mem (db : DB) (uid : Nat) (n : String) :
    has_role db uid n = true ↔ n ∈ get_user_roles db uid := by
  rw [mem_get_user_roles]
  simp [has_role]

/-- The SQL `is_admin` is exactly the role-set disjunct (over the held
role set) OR the legacy-entry match. -/
theorem is_admin_eq (db : DB) (uid : Nat) (email : String) :
    is_admin db uid email =
      (hasAnyRole (get_user_roles db uid) ["admin", "super_admin"]
        || legacyMatch db email) := by
  rw [Bool.eq_iff_iff]
  simp [is_admin, legacyMatch, hasAnyRole, mem_get_user_roles]
  constructor
  · rintro (⟨ur, hur, hu, r, hr, hid, hn | hn⟩ | h)
    · exact Or.inl (Or.inl ⟨ur, hur, hu, r, hr, hid, hn⟩)
    · exact Or.inl (Or.inr ⟨ur, hur, hu, r, hr, hid, hn⟩)
    · exact Or.inr h
  · rintro ((⟨ur, hur, hu, r, hr, hid, hn⟩ | ⟨ur, hur, hu, r, hr, hid, hn⟩) | h)
    · exact Or.inl ⟨ur, hur, hu, r, hr, hid, Or.inl hn⟩
    · exact Or.inl ⟨ur, hur, hu, r, hr, hid, Or.inr hn⟩
    · exact Or.inr h

/-- A successful `.single()` role lookup means the name filter returned
exactly one row, whose id is the result. -/
theorem selectRoleIdSingle_ok (db : DB) (n : String) (rid : Nat)
    (h : selectRoleIdSingle db n = .ok rid) :
    ∃ r : Role, db.roles.filter (fun r => r.name == n) = [r] ∧ r.id = rid := by
  unfold selectRoleIdSingle at h
  split at h
  next r heq =>
    cases h
    exact ⟨r, heq, rfl⟩
  next => simp at h
  next => simp at h

/-- When the name filter has exactly one row, any role row with that name
is that row. -/
theorem roles_name_unique (db : DB) (n : String) (r0 : Role)
    (hf : db.roles.filter (fun r => r.name == n) = [r0]) :
    ∀ r ∈ db.roles, r.name = n → r = r0 := by
  intro r hr hn
  have hmem : r ∈ db.roles.filter (fun r => r.name == n) := by
    simp [List.mem_filter, hr, hn]
  rw [hf] at hmem
  simpa using hmem

/-- Anatomy of a successful `assignRole`: the role resolved to a unique id,
the key was not yet present, and the row was appended. -/
theorem assignRole_ok_elim (db : DB) (uid : Nat) (n : String) (db' : DB)
    (h : assignRole db uid n = .ok db') :
    ∃ rid, selectRoleIdSingle db n = .ok rid ∧
      db.user_roles.any (fun ur => ur.user_id == uid && ur.role_id == rid)
        = false ∧
      db' = { db with user_roles := db.user_roles ++ [⟨uid, rid⟩] } := by
  unfold assignRole at h
  split at h
  next => simp at h
  next rid heq =>
    split at h
    next => simp at h
    next hany =>
      cases h
      exact ⟨rid, heq, by simpa using hany, rfl⟩

/-- Anatomy of a successful `removeRole`: the role resolved to a unique id
and the matching rows were deleted. -/
theorem removeRole_ok_elim (db : DB) (uid : Nat) (n : String) (db' : DB)
    (h : removeRole db uid n = .ok db') :
    ∃ rid, selectRoleIdSingle db n = .ok rid ∧
      db' = { db with user_roles := db.user_roles.filter (fun ur => !(ur.user_id == uid && ur.role_id == rid)) } := by
  unfold removeRole at h
  split at h
  next => simp at h
  next rid heq =>
    cases h
    exact ⟨rid, heq, rfl⟩

/-- Computation rule for `removeRole` once the role id is resolved. -/
theorem removeRole_eq_of_sel (db : DB) (uid : Nat) (n : String) (rid : Nat)
    (hsel : selectRoleIdSingle db n = .ok rid) :
    removeRole db uid n = .ok { db with user_roles := db.user_roles.filter (fun ur => !(ur.user_id == uid && ur.role_id == rid)) } := by
  unfold removeRole
  rw [hsel]

theorem assignRole_eq_of_sel (db : DB) (uid : Nat) (n : String) (rid : Nat)
    (hsel : selectRoleIdSingle db n = .ok rid) :
    assignRole db uid n =
      if db.user_roles.any (fun ur => ur.user_id == uid && ur.role_id == rid)
      then .error .uniqueViolation
      else .ok { db with user_roles := db.user_roles ++ [⟨uid, rid⟩] } := by
  unfold assignRole
  rw [hsel]

theorem assignRole_mem (db : DB) (uid : Nat) (n : String) (db' : DB)
    (h : assignRole db uid n = .ok db') :
    n ∈ get_user_roles db' uid := by
  obtain ⟨rid, hsel, hany, hdb⟩ := assignRole_ok_elim db uid n db' h
  obtain ⟨r0, hf, hid⟩ := selectRoleIdSingle_ok db n rid hsel
  have hr0 : r0 ∈ db.roles ∧ r0.name = n := by
    have hm : r0 ∈ db.roles.filter (fun r => r.name == n) := by
      rw [hf]; simp
    simpa [List.mem_filter] using hm
  subst hdb
  rw [mem_get_user_roles]
  refine ⟨⟨uid, rid⟩, by simp, rfl, r0, hr0.1, hid, hr0.2⟩

theorem removeRole_not_mem (db : DB) (uid : Nat) (n : String) (db' : DB)
    (h : removeRole db uid n = .ok db') :
    n ∉ get_user_roles db' uid := by
  obtain ⟨rid, hsel, hdb⟩ := removeRole_ok_elim db uid n db' h
  obtain ⟨r0, hf, hid⟩ := selectRoleIdSingle_ok db n rid hsel
  subst hdb
  rw [mem_get_user_roles]
  rintro ⟨ur, hur, hu, r, hr, hrid, hn⟩
  have hur' : ur ∈ db.user_roles.filter (fun ur => !(ur.user_id == uid && ur.role_id == rid)) := hur
  have hr' : r ∈ db.roles := hr
  have hflt := (List.mem_filter.mp hur').2
  have hreq : r = r0 := roles_name_unique db n r0 hf r hr' hn
  have hurrid : ur.role_id = rid := by rw [← hrid, hreq]; exact hid
  simp [hu, hurrid] at hflt

theorem removeRole_idem (db : DB) (uid : Nat) (n : String) (db' : DB)
    (h : removeRole db uid n = .ok db') :
    removeRole db' uid n = .ok db' := by
  obtain ⟨rid, hsel, hdb⟩ := removeRole_ok_elim db uid n db' h
  have hsel' : selectRoleIdSingle db' n = .ok rid := by rw [hdb]; exact hsel
  rw [removeRole_eq_of_sel db' uid n rid hsel']
  have hff : db'.user_roles.filter (fun ur => !(ur.user_id == uid && ur.role_id == rid)) = db'.user_roles := by
    rw [hdb]
    exact List.filter_eq_self.mpr (fun a ha => (List.mem_filter.mp ha).2)
  rw [hff]

theorem assignRole_twice (db : DB) (uid : Nat) (n : String) (db' : DB)
    (h : assignRole db uid n = .ok db') :
    assignRole db' uid n = .error .uniqueViolation := by
  obtain ⟨rid, hsel, hany, hdb⟩ := assignRole_ok_elim db uid n db' h
  have hsel' : selectRoleIdSingle db' n = .ok rid := by rw [hdb]; exact hsel
  have hmem : db'.user_roles.any (fun ur => ur.user_id == uid && ur.role_id == rid) = true := by
    rw [hdb]; simp
  rw [assignRole_eq_of_sel db' uid n rid hsel', if_pos hmem]

theorem assignRole_notFound (db : DB) (uid : Nat) (n : String)
    (h : db.roles.filter (fun r => r.name == n) = []) :
    assignRole db uid n = .error .notFound := by
  unfold assignRole selectRoleIdSingle
  rw [h]

theorem removeRole_noop (db : DB) (uid : Nat) (n : String) (rid : Nat)
    (hsel : selectRoleIdSingle db n = .ok rid)
    (hnot : db.user_roles.any (fun ur => ur.user_id == uid && ur.role_id == rid) = false) :
    removeRole db uid n = .ok db := by
  rw [removeRole_eq_of_sel db uid n rid hsel]
  have hff : db.user_roles.filter (fun ur => !(ur.user_id == uid && ur.role_id == rid)) = db.user_roles := by
    refine List.filter_eq_self.mpr (fun a ha => ?_)
    rw [List.any_eq_false] at hnot
    have := hnot a ha
    cases hx : (a.user_id == uid && a.role_id == rid) <;> simp_all
  rw [hff]

theorem dupFree_iff (l : List Assignment) :
    dupFree l = true ↔
      List.Pairwise
        (fun a b => ¬(a.user_id = b.user_id ∧ a.role_id = b.role_id)) l := by
  induction l with
  | nil => simp [dupFree]
  | cons ur rest ih =>
    simp [dupFree, keyFree, ih, List.pairwise_cons, List.any_eq_false]
    intro _
    constructor
    · intro h b hb he hr
      exact h b hb he.symm hr.symm
    · intro h b hb he hr
      exact h b hb he.symm hr.symm

theorem dupFree_invariant (db db' : DB) (hreach : Reach db db')
    (hinit : dupFree db.user_roles = true) :
    dupFree db'.user_roles = true := by
  induction hreach with
  | refl => exact hinit
  | tail hsteps hstep ih =>
    cases hstep with
    | assignOk uid n d2 h =>
      obtain ⟨rid, hsel, hany, hdb⟩ := assignRole_ok_elim _ _ _ _ h
      subst hdb
      rw [dupFree_iff] at ih ⊢
      rename_i b
      have hproj : ({ b with user_roles := b.user_roles ++ [(⟨uid, rid⟩ : Assignment)] } : DB).user_roles = b.user_roles ++ [(⟨uid, rid⟩ : Assignment)] := rfl
      rw [hproj, List.pairwise_append]
      refine ⟨ih, by simp, ?_⟩
      intro a ha c hc
      have hc' : c = (⟨uid, rid⟩ : Assignment) := by simpa using hc
      subst hc'
      rw [List.any_eq_false] at hany
      have hno := hany a ha
      rintro ⟨h1, h2⟩
      simp [h1, h2] at hno
    | assignErr uid n e h => exact ih
    | removeOk uid n d2 h =>
      obtain ⟨rid, hsel, hdb⟩ := removeRole_ok_elim _ _ _ _ h
      subst hdb
      rw [dupFree_iff] at ih ⊢
      exact List.Pairwise.filter _ ih
    | removeErr uid n e h => exact ih

theorem dupFree_count (l : List Assignment) (hl : dupFree l = true)
    (uid rid : Nat) :
    (l.filter (fun ur => ur.user_id == uid && ur.role_id == rid)).length
      ≤ 1 := by
  induction l with
  | nil => simp
  | cons ur rest ih =>
    have hl' : keyFree ur.user_id ur.role_id rest = true ∧ dupFree rest = true := by
      simpa [dupFree] using hl
    by_cases hm : (ur.user_id == uid && ur.role_id == rid) = true
    · have hu : ur.user_id = uid ∧ ur.role_id = rid := by simpa using hm
      have hrest : rest.filter (fun x => x.user_id == uid && x.role_id == rid) = [] := by
        rw [List.filter_eq_nil_iff]
        intro a ha
        have hkf := hl'.1
        simp only [keyFree, Bool.not_eq_true'] at hkf
        rw [List.any_eq_false] at hkf
        have hha := hkf a ha
        rw [hu.1, hu.2] at hha
        simpa using hha
      simp [List.filter_cons, hm, hrest]
    · have hm' : (ur.user_id == uid && ur.role_id == rid) = false := by
        cases hx : (ur.user_id == uid && ur.role_id == rid) <;> simp_all
      rw [List.filter_cons]
      rw [hm']
      exact ih hl'.2

/-! ## Claims -/

/-- C1 (counterexample): for the client-side evaluator the claimed
equivalence fails: the identity of `exLegacyDB` holds no roles but has a
matching legacy admin entry, so the role-set-OR-legacy disjunction is true
while the client `isAdmin()` is false. -/
theorem C1_counterexample :
    ¬ (isAdmin (rolesState exLegacyDB (some 1) .success) =
        (hasAnyRole (rolesState exLegacyDB (some 1) .success)
            ["admin", "super_admin"]
          || legacyMatch exLegacyDB "a@x.com")) := by
  decide

/-- C1 (amended): the equivalence `isAdmin ↔ role-set disjunct OR
legacy-entry match` holds for the database `is_admin()`; the client-side
`isAdmin()` computes only the role-set disjunct and never consults the
legacy entries. -/
theorem C1_amended_thm (db : DB) (uid : Nat) (email : String) :
    is_admin db uid email =
      (hasAnyRole (get_user_roles db uid) ["admin", "super_admin"]
        || legacyMatch db email)
    ∧ isAdmin (get_user_roles db uid) =
        hasAnyRole (get_user_roles db uid) ["admin", "super_admin"] :=
  ⟨is_admin_eq db uid email, rfl⟩

/-- C2 (counterexample): identity 1 of `exHeldDB` already holds `admin`,
and `assignRole` is not a no-op there: the plain insert hits the
`(user_id, role_id)` primary key and the call fails. -/
theorem C2_counterexample :
    has_role exHeldDB 1 "admin" = true
    ∧ assignRole exHeldDB 1 "admin" = Except.error OpError.uniqueViolation :=
  ⟨rfl, rfl⟩

/-- C2 (amended): `assignRole` fails with `notFound` when the role name is
not in the catalog, and assigning an already-held role fails with a
unique-key violation instead of returning as a no-op. -/
theorem C2_amended_thm (db : DB) (uid : Nat) (n : String) (rid : Nat) :
    (db.roles.filter (fun r => r.name == n) = [] →
      assignRole db uid n = .error .notFound)
    ∧ (selectRoleIdSingle db n = .ok rid →
        db.user_roles.any (fun ur => ur.user_id == uid && ur.role_id == rid)
          = true →
        assignRole db uid n = .error .uniqueViolation) := by
  constructor
  · exact fun h => assignRole_notFound db uid n h
  · intro hsel hany
    rw [assignRole_eq_of_sel db uid n rid hsel, if_pos hany]

/-- C2 (witness): both branches of the amended claim at concrete inputs. -/
theorem C2_witness :
    assignRole exHeldDB 1 "nosuch" = Except.error OpError.notFound
    ∧ assignRole exHeldDB 1 "admin" = Except.error OpError.uniqueViolation :=
  ⟨(C2_amended_thm exHeldDB 1 "nosuch" 0).1 rfl,
   (C2_amended_thm exHeldDB 1 "admin" 2).2 rfl rfl⟩

/-- C3 (counterexample): assigning `admin` to identity 2 twice in a row is
not a no-op equal to assigning once: the second call errors. -/
theorem C3_counterexample :
    assignRole exEmptyDB 2 "admin" = Except.ok exAfterAssignDB
    ∧ assignRole exAfterAssignDB 2 "admin"
        = Except.error OpError.uniqueViolation :=
  ⟨rfl, rfl⟩

/-- C3 (amended): after a successful assign the role is in `rolesFor`;
after a successful revoke it is not; double-revoke is a no-op; but a second
assign of a held role fails with a unique-key violation. -/
theorem C3_amended_thm (db : DB) (uid : Nat) (n : String) (db' db'' : DB) :
    (assignRole db uid n = .ok db' → n ∈ get_user_roles db' uid)
    ∧ (removeRole db uid n = .ok db'' → n ∉ get_user_roles db'' uid)
    ∧ (removeRole db uid n = .ok db'' → removeRole db'' uid n = .ok db'')
    ∧ (assignRole db uid n = .ok db' →
        assignRole db' uid n = .error .uniqueViolation) :=
  ⟨assignRole_mem db uid n db', removeRole_not_mem db uid n db'',
   removeRole_idem db uid n db'', assignRole_twice db uid n db'⟩

/-- C3 (witness): the amended claim at concrete inputs. -/
theorem C3_witness :
    "admin" ∈ get_user_roles exAfterAssignDB 2
    ∧ "admin" ∉ get_user_roles exEmptyDB 2
    ∧ removeRole exEmptyDB 2 "admin" = Except.ok exEmptyDB
    ∧ assignRole exAfterAssignDB 2 "admin"
        = Except.error OpError.uniqueViolation := by
  obtain ⟨h1, h2, h3, h4⟩ :=
    C3_amended_thm exEmptyDB 2 "admin" exAfterAssignDB exEmptyDB
  exact ⟨h1 rfl, h2 rfl, h3 rfl, h4 rfl⟩

/-- C4: `can_manage_roles()` is true exactly when the held role set
contains `super_admin`, and both the client `isSuperAdmin()` and
`can_manage_roles()` are false for every role set drawn from the seven
other predefined roles. -/
theorem C4_thm (db : DB) (uid : Nat) (roleNames : List String) :
    (can_manage_roles db uid = true ↔
      "super_admin" ∈ get_user_roles db uid)
    ∧ ((∀ s ∈ roleNames, s ∈ otherSevenRoles) →
        isSuperAdmin roleNames = false)
    ∧ ((∀ s ∈ get_user_roles db uid, s ∈ otherSevenRoles) →
        can_manage_roles db uid = false) := by
  have hiff := has_role_iff_mem db uid "super_admin"
  refine ⟨hiff, ?_, ?_⟩
  · intro hall
    have hnot : "super_admin" ∉ roleNames := fun hmem => by
      have hmem2 := hall _ hmem
      simp [otherSevenRoles] at hmem2
    simpa [isSuperAdmin, hasRole] using hnot
  · intro hall
    cases hx : can_manage_roles db uid with
    | false => rfl
    | true =>
      have hmem := hiff.mp hx
      have hmem2 := hall _ hmem
      simp [otherSevenRoles] at hmem2

/-- C4 (witness): the claim at concrete inputs, including a role set of
two of the other seven roles containing `admin`. -/
theorem C4_witness :
    (can_manage_roles exCatalogDB 1 = true ↔
      "super_admin" ∈ get_user_roles exCatalogDB 1)
    ∧ isSuperAdmin ["admin", "zen_analyst"] = false
    ∧ can_manage_roles exCatalogDB 3 = false :=
  ⟨(C4_thm exCatalogDB 1 []).1,
   (C4_thm exCatalogDB 1 ["admin", "zen_analyst"]).2.1 (by decide),
   (C4_thm exCatalogDB 3 []).2.2 (by decide)⟩

/-- C5: every mutation (non-SELECT) on the `roles` or `user_roles` tables
permitted by the row-level-security policies implies the caller satisfies
`can_manage_roles()`. -/
theorem C5_thm (db : DB) (uid : Nat) (email : String) (cmd : Cmd)
    (row : Assignment) (r : Role) (hcmd : cmd ≠ .select) :
    (allowed userRolesPolicies cmd db uid email row = true →
      can_manage_roles db uid = true)
    ∧ (allowed rolesPolicies cmd db uid email r = true →
      can_manage_roles db uid = true) := by
  cases cmd with
  | select => exact absurd rfl hcmd
  | insert =>
    refine ⟨?_, ?_⟩ <;> intro h <;>
      simpa [allowed, userRolesPolicies, rolesPolicies, allCmds] using h
  | update =>
    refine ⟨?_, ?_⟩ <;> intro h <;>
      simpa [allowed, userRolesPolicies, rolesPolicies, allCmds] using h
  | delete =>
    refine ⟨?_, ?_⟩ <;> intro h <;>
      simpa [allowed, userRolesPolicies, rolesPolicies, allCmds] using h

/-- C5 (witness): an insert into `user_roles` permitted for the
super-admin of `exCatalogDB` indeed implies `can_manage_roles`. -/
theorem C5_witness : can_manage_roles exCatalogDB 1 = true :=
  (C5_thm exCatalogDB 1 "s@x.com" .insert ⟨2, 8⟩ ⟨9, "newrole"⟩
    (by decide)).1 (by decide)

/-- C6: when the role fetch fails, the client role state is the empty set
and every role predicate, including `isAdmin()`, is false. -/
theorem C6_thm (db : DB) (uid : Nat) (n : String) (names : List String) :
    rolesState db (some uid) .failure = []
    ∧ hasRole (rolesState db (some uid) .failure) n = false
    ∧ hasAnyRole (rolesState db (some uid) .failure) names = false
    ∧ isAdmin (rolesState db (some uid) .failure) = false := by
  refine ⟨rfl, rfl, ?_, rfl⟩
  simp [rolesState, hasAnyRole]

/-- C7: revoking a catalog role that the identity does not hold succeeds
and leaves the store unchanged. -/
theorem C7_thm (db : DB) (uid : Nat) (n : String) (rid : Nat)
    (hsel : selectRoleIdSingle db n = .ok rid)
    (hnot : db.user_roles.any
      (fun ur => ur.user_id == uid && ur.role_id == rid) = false) :
    removeRole db uid n = .ok db :=
  removeRole_noop db uid n rid hsel hnot

/-- C7 (witness): identity 3 of `exCatalogDB` does not hold `admin`; the
revoke returns the store unchanged. -/
theorem C7_witness :
    removeRole exCatalogDB 3 "admin" = Except.ok exCatalogDB :=
  C7_thm exCatalogDB 3 "admin" 2 rfl rfl

/-- C8: in every store reachable by assign/revoke sequences from a
duplicate-free store, each `(user_id, role_id)` key matches at most one
`user_roles` row. -/
theorem C8_thm (init db : DB) (hinit : dupFree init.user_roles = true)
    (hreach : Reach init db) (uid rid : Nat) :
    (db.user_roles.filter
      (fun ur => ur.user_id == uid && ur.role_id == rid)).length ≤ 1 :=
  dupFree_count db.user_roles (dupFree_invariant init db hreach hinit) uid rid

/-- C8 (witness): the store reached by one assign from the empty store
holds the key `(2, 2)` at most once. -/
theorem C8_witness :
    (exAfterAssignDB.user_roles.filter
      (fun ur => ur.user_id == 2 && ur.role_id == 2)).length ≤ 1 :=
  C8_thm exEmptyDB exAfterAssignDB rfl
    (Relation.ReflTransGen.single
      (Step.assignOk exEmptyDB 2 "admin" exAfterAssignDB rfl)) 2 2

/-- C9: writes to `articles` are allowed exactly for `mantra_curator` or
admins, reads are public, and an identity holding only `mantra_curator`
may write articles but not `roles` or `user_roles` rows. -/
theorem C9_thm (db : DB) (uid : Nat) (email : String) (cmd : Cmd)
    (a : Article) (row : Assignment) (r : Role) :
    (cmd ≠ .select →
      allowed articlesPolicies cmd db uid email a =
        (has_role db uid "mantra_curator" || is_admin db uid email))
    ∧ allowed articlesPolicies .select db uid email a = true
    ∧ (get_user_roles db uid = ["mantra_curator"] →
        legacyMatch db email = false →
        allowed articlesPolicies .insert db uid email a = true
        ∧ allowed userRolesPolicies .insert db uid email row = false
        ∧ allowed rolesPolicies .insert db uid email r = false) := by
  refine ⟨?_, ?_, ?_⟩
  · intro hcmd
    cases cmd with
    | select => exact absurd rfl hcmd
    | insert =>
      simp [allowed, articlesPolicies, articlesPublicReadPolicy, allCmds]
    | update =>
      simp [allowed, articlesPolicies, articlesPublicReadPolicy, allCmds]
    | delete =>
      simp [allowed, articlesPolicies, articlesPublicReadPolicy, allCmds]
  · simp [allowed, articlesPolicies, articlesPublicReadPolicy, allCmds]
  · intro honly hleg
    have hcur : has_role db uid "mantra_curator" = true := by
      rw [has_role_iff_mem, honly]
      simp
    have hadm : is_admin db uid email = false := by
      rw [is_admin_eq, honly, hleg]
      decide
    have hsup : can_manage_roles db uid = false := by
      cases hx : can_manage_roles db uid with
      | false => rfl
      | true =>
        have hmem := (has_role_iff_mem db uid "super_admin").mp hx
        rw [honly] at hmem
        simp at hmem
    refine ⟨?_, ?_, ?_⟩
    · simp [allowed, articlesPolicies, articlesPublicReadPolicy, allCmds,
        hcur]
    · simp [allowed, userRolesPolicies, allCmds, hsup]
    · simp [allowed, rolesPolicies, allCmds, hsup]

/-- C9 (witness): identity 4 of `exCatalogDB` holds only `mantra_curator`:
articles writes and reads allowed; `roles`/`user_roles` writes denied. -/
theorem C9_witness :
    allowed articlesPolicies Cmd.insert exCatalogDB 4 "u@x.com" ⟨1⟩ =
      (has_role exCatalogDB 4 "mantra_curator"
        || is_admin exCatalogDB 4 "u@x.com")
    ∧ allowed articlesPolicies Cmd.select exCatalogDB 4 "u@x.com" ⟨1⟩ = true
    ∧ (allowed articlesPolicies Cmd.insert exCatalogDB 4 "u@x.com" ⟨1⟩ = true
      ∧ allowed userRolesPolicies Cmd.insert exCatalogDB 4 "u@x.com" ⟨4, 1⟩
          = false
      ∧ allowed rolesPolicies Cmd.insert exCatalogDB 4 "u@x.com" ⟨9, "x"⟩
          = false) := by
  obtain ⟨h1, h2, h3⟩ :=
    C9_thm exCatalogDB 4 "u@x.com" .insert ⟨1⟩ ⟨4, 1⟩ ⟨9, "x"⟩
  exact ⟨h1 (by decide), h2, h3 rfl rfl⟩

/-- C10: with no authenticated identity the client role state is empty and
`hasRole`, `hasAnyRole`, `isAdmin`, `isSuperAdmin` are all false. -/
theorem C10_thm (db : DB) (outcome : FetchOutcome) (n : String)
    (names : List String) :
    rolesState db none outcome = []
    ∧ hasRole (rolesState db none outcome) n = false
    ∧ hasAnyRole (rolesState db none outcome) names = false
    ∧ isAdmin (rolesState db none outcome) = false
    ∧ isSuperAdmin (rolesState db none outcome) = false := by
  refine ⟨rfl, rfl, ?_, rfl, rfl⟩
  simp [rolesState, hasAnyRole]

end Gizmo
